import Mathlib

/-
Verification of the COSMIC-VLA commensal-observing automator
(src/automator/automator.py) against its natural-language specification.

The Python program is shallowly embedded: Python strings become `List Char`,
the Python dict `daq_states` becomes an association list, the Redis pubsub
subscription set becomes a list of channel names, calls on the external
`Interface` object become explicit oracle inputs, the external side effects
(`stop_recording`, `process`) are collected in an action trace, and Python
exceptions become an explicit error component of each operation's outcome.
-/

namespace Automator

/-- Python strings are modelled as lists of characters. -/
abbrev PyStr := List Char

/-- Boolean test that `p` is a prefix of `s`; used to locate the first
occurrence of a separator substring, mirroring Python's `str.split`. -/
def isPre : PyStr → PyStr → Bool
  | [], _ => true
  | _ :: _, [] => false
  | a :: as, b :: bs => decide (a = b) && isPre as bs

/-- Model of Python `s.split(sep, 1)` for a nonempty `sep`: the parts before
and after the first occurrence of `sep` in `s`, or `none` when `sep` does not
occur (in which case Python's subsequent indexing `[1]` raises `IndexError`). -/
def pySplitFirst (sep : PyStr) : PyStr → Option (PyStr × PyStr)
  | [] => none
  | c :: rest =>
    if isPre sep (c :: rest) then some ([], (c :: rest).drop sep.length)
    else (pySplitFirst sep rest).map (fun p => (c :: p.1, p.2))

/-- Model of Python `s.split(sep)[0]`: the part of `s` before the first
occurrence of `sep`, or all of `s` when `sep` does not occur. -/
def pyHeadSplit (sep s : PyStr) : PyStr :=
  match pySplitFirst sep s with
  | none => s
  | some p => p.1

/-- Whether `sep` occurs as a contiguous substring of `s`. -/
def containsSub (sep s : PyStr) : Bool := (pySplitFirst sep s).isSome

/-- `sep` has no nonempty proper suffix that is also a prefix of itself
(no self-overlap), so an occurrence of `sep` cannot straddle the boundary
between a text and an appended copy of `sep`. -/
abbrev BifixFree (sep : PyStr) : Prop :=
  ∀ k, k < sep.length → 0 < k → isPre (sep.drop k) sep = false

/- String constants appearing in the source. -/

def strSep : PyStr := "://".toList

def statusSuffix : PyStr := "/status".toList

def colonSep : PyStr := ":".toList

def keyspacePre : PyStr := "__keyspace@0__:".toList

def onSourceS : PyStr := "on_source".toList

def offSourceS : PyStr := "off_source".toList

def unknownS : PyStr := "unknown".toList

def recordingS : PyStr := "recording".toList

def recordS : PyStr := "record".toList

def hsetS : PyStr := "hset".toList

/- Data model.

`daq_states` is a Python dict from instance name to last known DAQ state;
it is modelled as an association list with the usual Python dict semantics
(lookup by key, in-place replacement on assignment, `KeyError` on a missing
`pop`).  The pubsub subscription set is modelled as the list of channel
names currently subscribed (Redis `subscribe` of an already-subscribed
channel and `unsubscribe` of an unsubscribed channel are no-ops). -/

/-- Python `d.get(key, default)`. -/
def dictGet : List (PyStr × PyStr) → PyStr → PyStr → PyStr
  | [], _, default => default
  | (k', v) :: rest, k, default =>
    if k' = k then v else dictGet rest k default

/-- Python `key in d`. -/
def dictMem : List (PyStr × PyStr) → PyStr → Bool
  | [], _ => false
  | (k', _) :: rest, k => decide (k' = k) || dictMem rest k

/-- Python `d[key] = v`: replace the entry in place, or append a new one. -/
def dictSet : List (PyStr × PyStr) → PyStr → PyStr → List (PyStr × PyStr)
  | [], k, v => [(k, v)]
  | (k', v') :: rest, k, v =>
    if k' = k then (k, v) :: rest else (k', v') :: dictSet rest k v

/-- Removal of the entry for `key` (Python dicts hold at most one). -/
def dictRemove : List (PyStr × PyStr) → PyStr → List (PyStr × PyStr)
  | [], _ => []
  | (k', v') :: rest, k =>
    if k' = k then dictRemove rest k else (k', v') :: dictRemove rest k

/-- Python `d.pop(key)` with no default: the dict without the entry for
`key`, or `none` when `key` is absent (Python raises `KeyError`). -/
def dictPop (d : List (PyStr × PyStr)) (k : PyStr) :
    Option (List (PyStr × PyStr)) :=
  if dictMem d k then some (dictRemove d k) else none

/-- Redis `ps.subscribe(c)`: adds `c` to the live subscription set
(idempotent at the protocol level). -/
def subAdd (subs : List PyStr) (c : PyStr) : List PyStr :=
  if c ∈ subs then subs else subs ++ [c]

/-- Redis `ps.unsubscribe(c)`: removes `c` from the live subscription set. -/
def subRemove (subs : List PyStr) (c : PyStr) : List PyStr :=
  subs.filter (fun x => decide (x ≠ c))

/-- The channel name, domain ++ '://' ++ instance ++ '/status', built by
`subscribe_instances` / `unsubscribe_instances` (line 211 and line 220). -/
def instance_channel (domain inst : PyStr) : PyStr :=
  domain ++ strSep ++ inst ++ statusSuffix

/-- The keyspace-notification wrapping: '__keyspace@0__:' ++ channel. -/
def keyspace (c : PyStr) : PyStr := keyspacePre ++ c

/-- Configuration passed to `Automator.__init__` (the Redis endpoint is
connection setup, out of scope). -/
structure Config where
  antenna_hash_key : PyStr
  instances : List PyStr
  daq_domain : PyStr
  duration : Nat
  deriving DecidableEq

/-- The automator's mutable local state: `self.telescope_state`,
`self.daq_states`, and the pubsub subscription set held by `ps`. -/
structure AutoState where
  telescope_state : PyStr
  daq_states : List (PyStr × PyStr)
  subs : List PyStr
  deriving DecidableEq

/-- Python exceptions that the embedded code can raise. -/
inductive Err where
  | keyError (k : PyStr)
  | interfaceError (msg : PyStr)
  | indexError
  deriving DecidableEq

/-- Externally visible actions invoked while handling one notification. -/
inductive Action where
  | stop_recording
  | process
  deriving DecidableEq

/-- The values returned (or the exceptions raised) by the calls on the
external `Interface` object during the handling of one notification. -/
structure Oracle where
  telescope_state : Except PyStr PyStr
  daq_record_state : Except PyStr PyStr
  daq_states_recording : Except PyStr (List PyStr)
  record_conditional : Except PyStr (List PyStr)
  src_name : Except PyStr PyStr
  stop_recording : Except PyStr Unit

/-- Result of one embedded operation: the state afterwards, the external
actions performed, and the exception propagating out of it, if any.  When
`err` is present, `state` and `actions` describe the partial effects that
happened before the exception was raised. -/
structure Outcome where
  state : AutoState
  actions : List Action
  err : Option Err
  deriving DecidableEq

/- The embedded operations, one per method of `Automator`. -/

/-- `parse_instance` (lines 128-142): extract the candidate instance name
from a channel and check it against the known instance list.  The bare
`except` makes the `IndexError` from `split('://', 1)[1]` return `None`. -/
def parse_instance (cfg : Config) (channel : PyStr) : Option PyStr :=
  match pySplitFirst strSep channel with
  | none => none
  | some p =>
    let inst := pyHeadSplit statusSuffix p.2
    if inst ∈ cfg.instances then some inst else none

/-- `subscribe_instances` (lines 207-212): subscribe to each instance's
keyspace channel. -/
def subscribe_instances (domain : PyStr) (insts : List PyStr)
    (subs : List PyStr) : List PyStr :=
  match insts with
  | [] => subs
  | i :: rest =>
    subscribe_instances domain rest
      (subAdd subs (keyspace (instance_channel domain i)))

/-- `unsubscribe_instances` (lines 215-222): unsubscribe each instance's
keyspace channel and `pop` it from `daq_states`; a missing key raises
`KeyError` after the channel has already been unsubscribed. -/
def unsubscribe_instances (domain : PyStr) (insts : List PyStr)
    (st : AutoState) : AutoState × Option Err :=
  match insts with
  | [] => (st, none)
  | i :: rest =>
    let st1 := { st with
      subs := subRemove st.subs (keyspace (instance_channel domain i)) }
    match dictPop st1.daq_states i with
    | none => (st1, some (Err.keyError i))
    | some d => unsubscribe_instances domain rest { st1 with daq_states := d }

/-- The per-instance state assignments of `telescope_on_source`
(lines 204-205): `self.daq_states[instance] = 'record'`. -/
def set_daq_states (d : List (PyStr × PyStr)) :
    List PyStr → List (PyStr × PyStr)
  | [] => d
  | i :: rest => set_daq_states (dictSet d i recordS) rest

/-- `telescope_on_source` (lines 186-205). -/
def telescope_on_source (cfg : Config) (o : Oracle) (st : AutoState) :
    Outcome :=
  match o.src_name with
  | .error e => ⟨st, [], some (Err.interfaceError e)⟩
  | .ok _ =>
    match o.record_conditional with
    | .error e => ⟨st, [], some (Err.interfaceError e)⟩
    | .ok rec_instances =>
      if rec_instances.length > 0 then
        ⟨{ st with
            subs := subscribe_instances cfg.daq_domain rec_instances st.subs,
            daq_states := set_daq_states st.daq_states rec_instances },
          [], none⟩
      else ⟨st, [], none⟩

/-- `telescope_off_source` (lines 172-183). -/
def telescope_off_source (cfg : Config) (o : Oracle) (st : AutoState) :
    Outcome :=
  match o.daq_states_recording with
  | .error e => ⟨st, [], some (Err.interfaceError e)⟩
  | .ok recording =>
    if recording.length > 0 then
      match o.stop_recording with
      | .error e => ⟨st, [], some (Err.interfaceError e)⟩
      | .ok _ =>
        match unsubscribe_instances cfg.daq_domain recording st with
        | (st1, some e) => ⟨st1, [Action.stop_recording], some e⟩
        | (st1, none) =>
          ⟨st1, [Action.stop_recording, Action.process], none⟩
    else ⟨st, [], none⟩

/-- `telescope_state_change` (lines 152-169). -/
def telescope_state_change (cfg : Config) (o : Oracle) (st : AutoState) :
    Outcome :=
  match o.telescope_state with
  | .error e => ⟨st, [], some (Err.interfaceError e)⟩
  | .ok ts =>
    if ts = st.telescope_state then ⟨st, [], none⟩
    else
      let st1 := { st with telescope_state := ts }
      if ts = offSourceS then telescope_off_source cfg o st1
      else if ts = onSourceS then telescope_on_source cfg o st1
      else ⟨st1, [], none⟩

/-- `recording_state_change` (lines 96-126). -/
def recording_state_change (cfg : Config) (o : Oracle) (st : AutoState)
    (channel : PyStr) : Outcome :=
  match parse_instance cfg channel with
  | none => ⟨st, [], none⟩
  | some inst =>
    match o.daq_record_state with
    | .error e => ⟨st, [], some (Err.interfaceError e)⟩
    | .ok new_state =>
      let old_state := dictGet st.daq_states inst unknownS
      let st1 := { st with daq_states := dictSet st.daq_states inst new_state }
      if new_state = unknownS then ⟨st1, [], none⟩
      else if old_state = recordingS ∧ new_state ≠ recordingS then
        match unsubscribe_instances cfg.daq_domain [inst] st1 with
        | (st2, some e) => ⟨st2, [], some e⟩
        | (st2, none) => ⟨st2, [Action.process], none⟩
      else ⟨st1, [], none⟩

/-- One pubsub message as delivered to the `ps.listen()` loop. -/
structure Msg where
  data : PyStr
  channel : PyStr
  deriving DecidableEq

/-- The body of the `ps.listen()` loop in `start` (lines 80-93): on an
`hset` event, strip the keyspace wrapper with `split(':', 1)[1]` and route
to the telescope or recording handler. -/
def handle_message (cfg : Config) (o : Oracle) (st : AutoState) (m : Msg) :
    Outcome :=
  if m.data = hsetS then
    match pySplitFirst colonSep m.channel with
    | none => ⟨st, [], some Err.indexError⟩
    | some p =>
      if p.2 = cfg.antenna_hash_key then telescope_state_change cfg o st
      else recording_state_change cfg o st p.2
  else ⟨st, [], none⟩

/-- The `ps.listen()` loop itself: successive messages are handled in
order; the loop contains no exception handler, so the first exception
raised while handling a message propagates and terminates the loop. -/
def run_loop (cfg : Config) (st : AutoState) :
    List (Oracle × Msg) → AutoState × List Action × Option Err
  | [] => (st, [], none)
  | (o, m) :: rest =>
    let out := handle_message cfg o st m
    match out.err with
    | some e => (out.state, out.actions, some e)
    | none =>
      let tail := run_loop cfg out.state rest
      (tail.1, out.actions ++ tail.2.1, tail.2.2)

/- Characterisation of `unsubscribe_instances` on the error-free path. -/

/-- The cumulative effect on `daq_states` of popping each instance. -/
def removeAllKeys (d : List (PyStr × PyStr)) (l : List PyStr) :
    List (PyStr × PyStr) :=
  l.foldl dictRemove d

/-- The cumulative effect on the subscription set of unsubscribing each
instance's keyspace channel. -/
def removeAllChans (dom : PyStr) (s : List PyStr) (l : List PyStr) :
    List PyStr :=
  l.foldl (fun s i => subRemove s (keyspace (instance_channel dom i))) s

/- Subscribe/unsubscribe operation sequences and the subscription invariant. -/

/-- The two subscription-changing operations the automator performs: the
subscribe-plus-state-assignment pair inside `telescope_on_source` (with the
given `record_conditional` return value), and `unsubscribe_instances`. -/
inductive Op where
  | subscribeRecord (rec : List PyStr)
  | unsubscribeOp (insts : List PyStr)

/-- An oracle whose `record_conditional` call returns `rec`. -/
def mkRecOracle (rec : List PyStr) : Oracle :=
  ⟨Except.ok [], Except.ok [], Except.ok [], Except.ok rec,
    Except.ok [], Except.ok ()⟩

def applyOp (cfg : Config) (st : AutoState) : Op → AutoState × Option Err
  | Op.subscribeRecord rec =>
    let out := telescope_on_source cfg (mkRecOracle rec) st
    (out.state, out.err)
  | Op.unsubscribeOp insts => unsubscribe_instances cfg.daq_domain insts st

/-- Run a sequence of operations, stopping at the first raised exception. -/
def applyOps (cfg : Config) : List Op → AutoState → AutoState × Option Err
  | [], st => (st, none)
  | op :: rest, st =>
    match applyOp cfg st op with
    | (st1, none) => applyOps cfg rest st1
    | (st1, some e) => (st1, some e)

/-- `subscribeRecord` is only issued with instances returned by
`record_conditional`, which are drawn from the known instance list. -/
def opKnown (cfg : Config) : Op → Bool
  | Op.subscribeRecord rec => rec.all (fun i => decide (i ∈ cfg.instances))
  | Op.unsubscribeOp _ => true

/-- The subscription invariant over the two mutable components: every key of
`daq_states` is a known instance, and an instance is a key of `daq_states`
exactly when its keyspace channel is in the live subscription set. -/
def InvDS (cfg : Config) (d : List (PyStr × PyStr)) (s : List PyStr) : Prop :=
  (∀ i, dictMem d i = true → i ∈ cfg.instances) ∧
  (∀ i, dictMem d i = true ↔
    keyspace (instance_channel cfg.daq_domain i) ∈ s)

def StateInv (cfg : Config) (st : AutoState) : Prop :=
  InvDS cfg st.daq_states st.subs

/- Concrete fixtures used to evaluate the embedded code at specific inputs. -/

def idleS : PyStr := "idle".toList

def connS : PyStr := "conn".toList

def nodeA : PyStr := "nodeA".toList

def nodeB : PyStr := "nodeB".toList

/-- A concrete configuration: antenna hash key `ants`, two known instances,
DAQ domain `daq`, recording duration 10 s. -/
def cfgW : Config := ⟨"ants".toList, [nodeA, nodeB], "daq".toList, 10⟩

def chanA : PyStr := keyspace (instance_channel cfgW.daq_domain nodeA)

def chanB : PyStr := keyspace (instance_channel cfgW.daq_domain nodeB)

/-- The channel for `nodeA` as seen by `recording_state_change`, after the
dispatch loop stripped the keyspace wrapper. -/
def chA : PyStr := "daq://nodeA/status".toList

/-- A foreign-domain channel whose candidate instance is unknown. -/
def chFoo : PyStr := "foo://bar/status".toList

/-- A foreign-domain channel whose extracted candidate is a known
instance. -/
def chForeign : PyStr := "foo://nodeA/status".toList

/-- The automator's state right after `__init__`. -/
def stEmpty : AutoState := ⟨unknownS, [], []⟩

/-- A state in which `nodeA` is watched and recorded as recording. -/
def stRecA : AutoState := ⟨onSourceS, [(nodeA, recordingS)], [chanA]⟩

/-- A state in which `nodeA` and `nodeB` are watched and recording. -/
def stRecAB : AutoState :=
  ⟨onSourceS, [(nodeA, recordingS), (nodeB, recordingS)], [chanA, chanB]⟩

/-- A state subscribed to `nodeB`'s channel without a `daq_states` entry
for `nodeB`. -/
def stC10 : AutoState := ⟨onSourceS, [(nodeA, recordingS)], [chanA, chanB]⟩

/-- Oracle: telescope `on_source`, `record_conditional` returns `[nodeA]`. -/
def oRecA : Oracle :=
  ⟨Except.ok onSourceS, Except.ok unknownS, Except.ok [],
    Except.ok [nodeA], Except.ok [], Except.ok ()⟩

/-- Oracle: the per-instance state query returns `idle`. -/
def oIdle : Oracle :=
  ⟨Except.ok onSourceS, Except.ok idleS, Except.ok [],
    Except.ok [], Except.ok [], Except.ok ()⟩

/-- Oracle: telescope `on_source`, per-instance query returns `unknown`. -/
def oUnk : Oracle :=
  ⟨Except.ok onSourceS, Except.ok unknownS, Except.ok [],
    Except.ok [], Except.ok [], Except.ok ()⟩

/-- Oracle: telescope `off_source`, both nodes reported recording. -/
def oOffAB : Oracle :=
  ⟨Except.ok offSourceS, Except.ok unknownS, Except.ok [nodeA, nodeB],
    Except.ok [], Except.ok [], Except.ok ()⟩

/-- Oracle: telescope `off_source`, only `nodeB` reported recording. -/
def oOffB : Oracle :=
  ⟨Except.ok offSourceS, Except.ok unknownS, Except.ok [nodeB],
    Except.ok [], Except.ok [], Except.ok ()⟩

/-- Oracle whose telescope-state query raises a connection error. -/
def oFail : Oracle :=
  ⟨Except.error connS, Except.ok unknownS, Except.ok [],
    Except.ok [], Except.ok [], Except.ok ()⟩

/-- An antenna-hash keyspace notification. -/
def mAnt : Msg := ⟨hsetS, keyspace cfgW.antenna_hash_key⟩

/-- Operation sequence for the invariant witness: watch `nodeA`, then
unsubscribe it. -/
def opsW : List Op := [Op.subscribeRecord [nodeA], Op.unsubscribeOp [nodeA]]

/- Lemmas about `isPre` and `pySplitFirst`. -/

theorem isPre_append_self (s r : PyStr) : isPre s (s ++ r) = true := by
  induction s with
  | nil => rfl
  | cons c cs ih => simp [isPre, ih]

theorem isPre_of_append_le (p x y : PyStr) (h : isPre p (x ++ y) = true)
    (hlen : p.length ≤ x.length) : isPre p x = true := by
  induction p generalizing x with
  | nil => rfl
  | cons c p' ih =>
    cases x with
    | nil => simp at hlen
    | cons d x' =>
      simp only [List.cons_append, isPre, Bool.and_eq_true, decide_eq_true_eq] at h
      simp only [isPre, Bool.and_eq_true, decide_eq_true_eq]
      exact ⟨h.1, ih x' h.2 (by simpa using hlen)⟩

theorem isPre_drop_of_append (a sep b : PyStr) (h : isPre sep (a ++ b) = true)
    (hlen : a.length ≤ sep.length) : isPre (sep.drop a.length) b = true := by
  induction a generalizing sep with
  | nil => simpa using h
  | cons x a' ih =>
    cases sep with
    | nil => simp at hlen
    | cons s0 sep' =>
      simp only [List.cons_append, isPre, Bool.and_eq_true, decide_eq_true_eq] at h
      simpa using ih sep' h.2 (by simpa using hlen)

theorem pySplitFirst_cons_none {sep : PyStr} {c : Char} {rest : PyStr}
    (h : pySplitFirst sep (c :: rest) = none) :
    isPre sep (c :: rest) = false ∧ pySplitFirst sep rest = none := by
  by_cases hp : isPre sep (c :: rest) = true
  · simp [pySplitFirst, hp] at h
  · refine ⟨by simpa using hp, ?_⟩
    cases hrec : pySplitFirst sep rest with
    | none => rfl
    | some p => simp [pySplitFirst, hp, hrec] at h

/-- Key splitting lemma: if `sep` does not occur in `d` and `sep` does not
overlap itself, then the first occurrence of `sep` in `d ++ sep ++ r` is
exactly the explicit one, and the split returns `(d, r)`. -/
theorem pySplitFirst_append (sep : PyStr) (hbf : BifixFree sep)
    (s0 : Char) (sep' : PyStr) (hs : sep = s0 :: sep') :
    ∀ d r, pySplitFirst sep d = none →
      pySplitFirst sep (d ++ sep ++ r) = some (d, r) := by
  intro d
  induction d with
  | nil =>
    intro r _
    subst hs
    rw [List.nil_append, List.cons_append]
    have h1 : isPre (s0 :: sep') (s0 :: (sep' ++ r)) = true := by
      have := isPre_append_self (s0 :: sep') r
      rwa [List.cons_append] at this
    have h2 : (s0 :: (sep' ++ r)).drop (s0 :: sep').length = r := by
      have := List.drop_left (s0 :: sep') r
      rwa [List.cons_append] at this
    simp [pySplitFirst, h1, h2]
  | cons c d' ih =>
    intro r hd
    obtain ⟨hfalse, hd'⟩ := pySplitFirst_cons_none hd
    have hgoalshape : (c :: d') ++ sep ++ r = c :: (d' ++ sep ++ r) := by
      simp
    rw [hgoalshape]
    have hnp : isPre sep (c :: (d' ++ sep ++ r)) = false := by
      cases ht : isPre sep (c :: (d' ++ sep ++ r)) with
      | false => rfl
      | true =>
        exfalso
        have ht' : isPre sep ((c :: d') ++ (sep ++ r)) = true := by
          simpa [List.append_assoc] using ht
        rcases Nat.lt_or_ge (c :: d').length sep.length with hlt | hge
        · have hdec := isPre_drop_of_append (c :: d') sep (sep ++ r) ht'
            (Nat.le_of_lt hlt)
          have hpre2 : isPre (sep.drop (c :: d').length) sep = true := by
            refine isPre_of_append_le _ sep r hdec ?_
            rw [List.length_drop]
            exact Nat.sub_le _ _
          have := hbf (c :: d').length hlt (by simp)
          rw [this] at hpre2
          exact Bool.false_ne_true hpre2
        · have : isPre sep (c :: d') = true :=
            isPre_of_append_le _ _ _ ht' hge
          rw [hfalse] at this
          exact Bool.false_ne_true this
    have hrec := ih r hd'
    have hnp' : isPre sep (c :: (d' ++ (sep ++ r))) = false := by
      simpa [List.append_assoc] using hnp
    have hrec' : pySplitFirst sep (d' ++ (sep ++ r)) = some (d', r) := by
      simpa [List.append_assoc] using hrec
    simp [pySplitFirst, hnp', hrec']

theorem containsSub_false_iff (sep s : PyStr) :
    containsSub sep s = false ↔ pySplitFirst sep s = none := by
  cases h : pySplitFirst sep s <;> simp [containsSub, h]

/- Lemmas about the dict and subscription-set operations. -/

theorem dictMem_dictSet_self (d : List (PyStr × PyStr)) (k v : PyStr) :
    dictMem (dictSet d k v) k = true := by
  induction d with
  | nil => simp [dictSet, dictMem]
  | cons p rest ih =>
    by_cases h : p.1 = k
    · simp [dictSet, dictMem, h]
    · simp [dictSet, dictMem, h, ih]

theorem dictMem_dictSet_ne (d : List (PyStr × PyStr)) (k v j : PyStr)
    (hne : j ≠ k) : dictMem (dictSet d k v) j = dictMem d j := by
  have hkj : ¬ k = j := fun hc => hne hc.symm
  induction d with
  | nil => simp [dictSet, dictMem, hkj]
  | cons p rest ih =>
    by_cases h : p.1 = k
    · simp [dictSet, dictMem, h, hkj]
    · simp [dictSet, dictMem, h, ih]

theorem dictRemove_dictSet (d : List (PyStr × PyStr)) (k v : PyStr) :
    dictRemove (dictSet d k v) k = dictRemove d k := by
  induction d with
  | nil => simp [dictSet, dictRemove]
  | cons p rest ih =>
    by_cases h : p.1 = k
    · simp [dictSet, dictRemove, h]
    · simp [dictSet, dictRemove, h, ih]

theorem dictMem_dictRemove_self (d : List (PyStr × PyStr)) (k : PyStr) :
    dictMem (dictRemove d k) k = false := by
  induction d with
  | nil => simp [dictRemove, dictMem]
  | cons p rest ih =>
    by_cases h : p.1 = k
    · simpa [dictRemove, dictMem, h] using ih
    · simpa [dictRemove, dictMem, h] using ih

theorem dictMem_dictRemove_ne (d : List (PyStr × PyStr)) (k j : PyStr)
    (hne : j ≠ k) : dictMem (dictRemove d k) j = dictMem d j := by
  have hkj : ¬ k = j := fun hc => hne hc.symm
  induction d with
  | nil => simp [dictRemove, dictMem]
  | cons p rest ih =>
    by_cases h : p.1 = k
    · have hpj : ¬ p.1 = j := fun hc => hne (by rw [← hc, h])
      simp [dictRemove, dictMem, h, hpj, hkj, ih]
    · simp [dictRemove, dictMem, h, ih]

theorem dictRemove_eq_filter (d : List (PyStr × PyStr)) (k : PyStr) :
    dictRemove d k = d.filter (fun p => decide (p.1 ≠ k)) := by
  induction d with
  | nil => rfl
  | cons p rest ih =>
    by_cases h : p.1 = k
    · simp [dictRemove, h, ih]
    · simp [dictRemove, h, ih]

theorem mem_subAdd (s : List PyStr) (c x : PyStr) :
    x ∈ subAdd s c ↔ x ∈ s ∨ x = c := by
  by_cases h : c ∈ s
  · simp only [subAdd, if_pos h]
    constructor
    · exact fun hx => Or.inl hx
    · rintro (hx | rfl)
      · exact hx
      · exact h
  · simp [subAdd, if_neg h]

theorem mem_subRemove (s : List PyStr) (c x : PyStr) :
    x ∈ subRemove s c ↔ x ∈ s ∧ x ≠ c := by
  simp [subRemove, List.mem_filter]

theorem channel_inj {dom i j : PyStr}
    (h : keyspace (instance_channel dom i) = keyspace (instance_channel dom j)) :
    i = j := by
  have h1 : instance_channel dom i = instance_channel dom j :=
    List.append_cancel_left h
  have h2 : (dom ++ strSep ++ i) ++ statusSuffix
      = (dom ++ strSep ++ j) ++ statusSuffix := h1
  have h3 : dom ++ strSep ++ i = dom ++ strSep ++ j :=
    List.append_cancel_right h2
  exact List.append_cancel_left h3

theorem unsubscribe_instances_ok (dom : PyStr) (l : List PyStr) :
    ∀ st : AutoState, l.Nodup →
      (∀ i ∈ l, dictMem st.daq_states i = true) →
      unsubscribe_instances dom l st =
        (⟨st.telescope_state, removeAllKeys st.daq_states l,
          removeAllChans dom st.subs l⟩, none) := by
  induction l with
  | nil => intro st _ _; rfl
  | cons i rest ih =>
    intro st hnd hm
    have hmi : dictMem st.daq_states i = true := hm i (by simp)
    have hrec := ih ⟨st.telescope_state, dictRemove st.daq_states i,
      subRemove st.subs (keyspace (instance_channel dom i))⟩
      (List.Nodup.of_cons hnd)
      (by
        intro j hj
        have hji : j ≠ i := by
          rintro rfl
          exact (List.nodup_cons.mp hnd).1 hj
        have := hm j (by simp [hj])
        simpa [dictMem_dictRemove_ne _ _ _ hji] using this)
    simp only [unsubscribe_instances, dictPop, hmi, if_pos]
    exact hrec

theorem removeAllKeys_eq_filter (l : List PyStr) :
    ∀ d, removeAllKeys d l = d.filter (fun p => decide (p.1 ∉ l)) := by
  induction l with
  | nil => intro d; simp [removeAllKeys]
  | cons i rest ih =>
    intro d
    have hstep : removeAllKeys d (i :: rest)
        = removeAllKeys (dictRemove d i) rest := rfl
    rw [hstep, ih, dictRemove_eq_filter, List.filter_filter]
    congr 1
    funext p
    by_cases h1 : p.1 = i <;> by_cases h2 : p.1 ∈ rest <;> simp [h1, h2]

theorem removeAllKeys_nil_of_all (d : List (PyStr × PyStr)) (l : List PyStr)
    (h : d.all (fun p => decide (p.1 ∈ l)) = true) :
    removeAllKeys d l = [] := by
  rw [removeAllKeys_eq_filter]
  rw [List.all_eq_true] at h
  rw [List.filter_eq_nil_iff]
  intro p hp
  have := h p hp
  simpa using this

theorem unsubscribe_instances_tel (dom : PyStr) (l : List PyStr) :
    ∀ st : AutoState,
      (unsubscribe_instances dom l st).1.telescope_state
        = st.telescope_state := by
  induction l with
  | nil => intro st; rfl
  | cons i rest ih =>
    intro st
    simp only [unsubscribe_instances]
    cases hpop : dictPop st.daq_states i with
    | none => simp [hpop]
    | some d => simp [hpop, ih]

/- Characterisation of `telescope_on_source` and telescope-state tracking. -/

theorem telescope_on_source_eq (cfg : Config) (o : Oracle) (st : AutoState)
    (s : PyStr) (rec : List PyStr)
    (hsrc : o.src_name = Except.ok s)
    (hrc : o.record_conditional = Except.ok rec) :
    telescope_on_source cfg o st =
      ⟨⟨st.telescope_state, set_daq_states st.daq_states rec,
        subscribe_instances cfg.daq_domain rec st.subs⟩, [], none⟩ := by
  cases rec with
  | nil => simp [telescope_on_source, hsrc, hrc, set_daq_states,
      subscribe_instances]
  | cons r rest => simp [telescope_on_source, hsrc, hrc]

theorem telescope_on_source_tel (cfg : Config) (o : Oracle) (st : AutoState) :
    (telescope_on_source cfg o st).state.telescope_state
      = st.telescope_state := by
  unfold telescope_on_source
  cases o.src_name with
  | error e => rfl
  | ok s =>
    cases o.record_conditional with
    | error e => rfl
    | ok rec =>
      by_cases h : rec.length > 0 <;> simp [h]

theorem telescope_off_source_tel (cfg : Config) (o : Oracle) (st : AutoState) :
    (telescope_off_source cfg o st).state.telescope_state
      = st.telescope_state := by
  unfold telescope_off_source
  cases o.daq_states_recording with
  | error e => rfl
  | ok recording =>
    by_cases h : recording.length > 0
    · simp only [h, if_pos]
      cases o.stop_recording with
      | error e => rfl
      | ok u =>
        cases hu : unsubscribe_instances cfg.daq_domain recording st with
        | mk st1 err =>
          have := unsubscribe_instances_tel cfg.daq_domain recording st
          rw [hu] at this
          cases err <;> simpa using this
    · simp [h]

theorem telescope_state_change_tel (cfg : Config) (o : Oracle)
    (st : AutoState) (ts : PyStr) (h : o.telescope_state = Except.ok ts) :
    (telescope_state_change cfg o st).state.telescope_state = ts := by
  simp only [telescope_state_change, h]
  by_cases h1 : ts = st.telescope_state
  · simp [h1]
  · rw [if_neg h1]
    by_cases h2 : ts = offSourceS
    · subst h2
      rw [if_pos rfl]
      exact telescope_off_source_tel cfg o
        { st with telescope_state := offSourceS }
    · rw [if_neg h2]
      by_cases h3 : ts = onSourceS
      · subst h3
        rw [if_pos rfl]
        exact telescope_on_source_tel cfg o
          { st with telescope_state := onSourceS }
      · rw [if_neg h3]

theorem invDS_subscribe_step (cfg : Config) (d : List (PyStr × PyStr))
    (s : List PyStr) (r : PyStr) (hinv : InvDS cfg d s)
    (hr : r ∈ cfg.instances) :
    InvDS cfg (dictSet d r recordS)
      (subAdd s (keyspace (instance_channel cfg.daq_domain r))) := by
  constructor
  · intro i hi
    by_cases hir : i = r
    · rw [hir]; exact hr
    · rw [dictMem_dictSet_ne d r recordS i hir] at hi
      exact hinv.1 i hi
  · intro i
    by_cases hir : i = r
    · subst hir
      rw [dictMem_dictSet_self, mem_subAdd]
      simp
    · rw [dictMem_dictSet_ne d r recordS i hir, mem_subAdd]
      have hch : keyspace (instance_channel cfg.daq_domain i)
          ≠ keyspace (instance_channel cfg.daq_domain r) :=
        fun hc => hir (channel_inj hc)
      simp only [hch, or_false]
      exact hinv.2 i

theorem invDS_on_source (cfg : Config) (rec : List PyStr)
    (hrec : ∀ r ∈ rec, r ∈ cfg.instances) :
    ∀ d s, InvDS cfg d s →
      InvDS cfg (set_daq_states d rec)
        (subscribe_instances cfg.daq_domain rec s) := by
  induction rec with
  | nil => intro d s h; exact h
  | cons r rest ih =>
    intro d s h
    have hstep := invDS_subscribe_step cfg d s r h (hrec r (by simp))
    exact ih (fun x hx => hrec x (by simp [hx])) _ _ hstep

theorem invDS_remove_step (cfg : Config) (d : List (PyStr × PyStr))
    (s : List PyStr) (i : PyStr) (hinv : InvDS cfg d s) :
    InvDS cfg (dictRemove d i)
      (subRemove s (keyspace (instance_channel cfg.daq_domain i))) := by
  constructor
  · intro j hj
    by_cases hji : j = i
    · subst hji
      rw [dictMem_dictRemove_self] at hj
      exact absurd hj (by simp)
    · rw [dictMem_dictRemove_ne d i j hji] at hj
      exact hinv.1 j hj
  · intro j
    by_cases hji : j = i
    · subst hji
      rw [dictMem_dictRemove_self, mem_subRemove]
      simp
    · rw [dictMem_dictRemove_ne d i j hji, mem_subRemove]
      have hch : keyspace (instance_channel cfg.daq_domain j)
          ≠ keyspace (instance_channel cfg.daq_domain i) :=
        fun hc => hji (channel_inj hc)
      simp only [hch, ne_eq, not_false_iff, and_true]
      exact hinv.2 j

theorem invDS_unsubscribe (cfg : Config) (l : List PyStr) :
    ∀ st st' : AutoState, StateInv cfg st →
      unsubscribe_instances cfg.daq_domain l st = (st', none) →
      StateInv cfg st' := by
  induction l with
  | nil =>
    intro st st' hinv hrun
    simp only [unsubscribe_instances] at hrun
    cases hrun
    exact hinv
  | cons i rest ih =>
    intro st st' hinv hrun
    simp only [unsubscribe_instances] at hrun
    cases hpop : dictPop st.daq_states i with
    | none => rw [hpop] at hrun; cases hrun
    | some d =>
      rw [hpop] at hrun
      have hd : d = dictRemove st.daq_states i := by
        simp only [dictPop] at hpop
        by_cases hm : dictMem st.daq_states i = true
        · rw [if_pos hm] at hpop
          exact (Option.some.injEq _ _ ▸ hpop).symm
        · rw [if_neg hm] at hpop; cases hpop
      subst hd
      have hmid : StateInv cfg ⟨st.telescope_state,
          dictRemove st.daq_states i,
          subRemove st.subs (keyspace (instance_channel cfg.daq_domain i))⟩ :=
        invDS_remove_step cfg st.daq_states st.subs i hinv
      exact ih _ st' hmid hrun

theorem applyOp_subscribeRecord (cfg : Config) (st : AutoState)
    (rec : List PyStr) :
    applyOp cfg st (Op.subscribeRecord rec) =
      (⟨st.telescope_state, set_daq_states st.daq_states rec,
        subscribe_instances cfg.daq_domain rec st.subs⟩, none) := by
  simp only [applyOp]
  rw [telescope_on_source_eq cfg (mkRecOracle rec) st [] rec rfl rfl]

/- Claim theorems. -/

/-- C1: after any error-free sequence of the automator's subscribe and
unsubscribe operations (the subscribe-plus-state-assignment pair of
`telescope_on_source`, and `unsubscribe_instances`), starting from a state
satisfying the subscription invariant and with every subscribed instance
drawn from the known instance list, the keys of `daq_states` are exactly
the instances whose keyspace channel is in the live subscription set, and
every key is a known instance. -/
theorem C1_subscription_invariant (cfg : Config) (ops : List Op) :
    ∀ st st' : AutoState, StateInv cfg st →
      ops.all (opKnown cfg) = true →
      applyOps cfg ops st = (st', none) →
      StateInv cfg st' := by
  induction ops with
  | nil =>
    intro st st' hinv _ hrun
    simp only [applyOps] at hrun
    injection hrun with h1 h2
    subst h1
    exact hinv
  | cons op rest ih =>
    intro st st' hinv hall hrun
    rw [List.all_cons, Bool.and_eq_true] at hall
    simp only [applyOps] at hrun
    cases op with
    | subscribeRecord rec =>
      rw [applyOp_subscribeRecord] at hrun
      have hknown : ∀ r ∈ rec, r ∈ cfg.instances := by
        have h := hall.1
        simp only [opKnown, List.all_eq_true] at h
        intro r hr
        simpa using h r hr
      have hmid : StateInv cfg ⟨st.telescope_state,
          set_daq_states st.daq_states rec,
          subscribe_instances cfg.daq_domain rec st.subs⟩ :=
        invDS_on_source cfg rec hknown st.daq_states st.subs hinv
      exact ih _ st' hmid hall.2 hrun
    | unsubscribeOp l =>
      cases hu : unsubscribe_instances cfg.daq_domain l st with
      | mk st1 errOpt =>
        have happ : applyOp cfg st (Op.unsubscribeOp l) = (st1, errOpt) := hu
        rw [happ] at hrun
        cases errOpt with
        | none =>
          exact ih st1 st' (invDS_unsubscribe cfg l st st1 hinv hu)
            hall.2 hrun
        | some e =>
          injection hrun with h1 h2
          cases h2

/-- Witness for C1 at a concrete run: starting from the startup state,
watching `nodeA` and then unsubscribing it leaves the invariant intact. -/
theorem C1_witness :
    dictMem (⟨unknownS, [], []⟩ : AutoState).daq_states nodeA = true ↔
      keyspace (instance_channel cfgW.daq_domain nodeA) ∈
        (⟨unknownS, [], []⟩ : AutoState).subs := by
  have hinv : StateInv cfgW stEmpty := by
    constructor
    · intro i hi
      simp [dictMem, stEmpty] at hi
    · intro i
      simp [dictMem, stEmpty]
  have hfin := C1_subscription_invariant cfgW opsW stEmpty
    ⟨unknownS, [], []⟩ hinv (by decide) (by decide)
  exact hfin.2 nodeA

/-- C2: evaluation of the code at the failing input.  With the telescope on
source and `record_conditional` returning `[nodeA]`, `telescope_on_source`
subscribes `nodeA`'s channel but stores the string `record` — not the
recording state `recording` — in `daq_states` (line 205).  Consequently the
code's own recording-finished check (line 117, which compares the stored
value against `recording`) does not fire on the next notification reporting
`idle`: no unsubscribe happens and no processing hook is invoked. -/
theorem C2_on_source_stores_record :
    dictGet (telescope_on_source cfgW oRecA stEmpty).state.daq_states nodeA
      unknownS = recordS
    ∧ recordS ≠ recordingS
    ∧ chanA ∈ (telescope_on_source cfgW oRecA stEmpty).state.subs
    ∧ (recording_state_change cfgW oIdle
        (telescope_on_source cfgW oRecA stEmpty).state chA).actions = []
    ∧ chanA ∈ (recording_state_change cfgW oIdle
        (telescope_on_source cfgW oRecA stEmpty).state chA).state.subs := by
  decide

/-- C3 counterexample: with `nodeA` stored as `recording`, a notification
whose re-query returns `unknown` does not preserve the stored state — line
107 overwrites it with `unknown` before the early return at line 113. -/
theorem C3_counterexample :
    dictGet stRecA.daq_states nodeA unknownS = recordingS
    ∧ dictGet (recording_state_change cfgW oUnk stRecA chA).state.daq_states
        nodeA unknownS = unknownS
    ∧ unknownS ≠ recordingS := by
  decide

/-- C3 amended: when the per-instance state query returns `unknown`,
`recording_state_change` performs no subscription change and no external
action, but it overwrites the instance's entry in `daq_states` with
`unknown` rather than preserving the previous value. -/
theorem C3_unknown_no_action_but_overwrites (cfg : Config) (o : Oracle)
    (st : AutoState) (channel inst : PyStr)
    (hparse : parse_instance cfg channel = some inst)
    (hq : o.daq_record_state = Except.ok unknownS) :
    recording_state_change cfg o st channel =
      ⟨⟨st.telescope_state, dictSet st.daq_states inst unknownS, st.subs⟩,
        [], none⟩ := by
  simp [recording_state_change, hparse, hq]

/-- Witness for the amended C3 at a concrete input. -/
theorem C3_witness :
    recording_state_change cfgW oUnk stRecA chA =
      ⟨⟨onSourceS, [(nodeA, unknownS)], [chanA]⟩, [], none⟩ := by
  have h := C3_unknown_no_action_but_overwrites cfgW oUnk stRecA chA nodeA
    (by decide) rfl
  rw [h]
  decide

/-- C4: when the stored telescope state changes to `off_source` and the
external query reports the recording instances, then — provided the
reported instances are distinct and all present in `daq_states` —
`telescope_state_change` invokes `stop_recording` exactly once, then
unsubscribes every reported instance's channel and removes its `daq_states`
entry, then invokes the processing hook; the map becomes empty when every
watched instance was reported recording.  When the reported set is empty,
no external action and no subscription change occurs. -/
theorem C4_off_source_stops_and_unsubscribes (cfg : Config) (o : Oracle)
    (st : AutoState) (recording : List PyStr)
    (hts : o.telescope_state = Except.ok offSourceS)
    (hne : st.telescope_state ≠ offSourceS)
    (hrec : o.daq_states_recording = Except.ok recording)
    (hstop : o.stop_recording = Except.ok ())
    (hmem : recording.all (fun i => dictMem st.daq_states i) = true)
    (hnd : recording.Nodup) :
    (recording ≠ [] →
      telescope_state_change cfg o st =
        ⟨⟨offSourceS, removeAllKeys st.daq_states recording,
          removeAllChans cfg.daq_domain st.subs recording⟩,
          [Action.stop_recording, Action.process], none⟩
      ∧ (st.daq_states.all (fun p => decide (p.1 ∈ recording)) = true →
          removeAllKeys st.daq_states recording = []))
    ∧ (recording = [] →
      telescope_state_change cfg o st =
        ⟨⟨offSourceS, st.daq_states, st.subs⟩, [], none⟩) := by
  have hbody : telescope_state_change cfg o st =
      telescope_off_source cfg o { st with telescope_state := offSourceS } := by
    simp only [telescope_state_change, hts]
    rw [if_neg (fun hc => hne hc.symm)]
    simp
  constructor
  · intro hnonempty
    constructor
    · rw [hbody]
      simp only [telescope_off_source, hrec]
      rw [if_pos (by
        simpa [gt_iff_lt, List.length_pos] using hnonempty)]
      rw [hstop]
      rw [unsubscribe_instances_ok cfg.daq_domain recording
        { st with telescope_state := offSourceS } hnd
        (by
          intro i hi
          have := List.all_eq_true.mp hmem i hi
          simpa using this)]
    · intro hall
      exact removeAllKeys_nil_of_all _ _ hall
  · intro hempty
    subst hempty
    rw [hbody]
    simp [telescope_off_source, hrec]

/-- Witness for C4: with `nodeA`, `nodeB` both watched and reported
recording, going off source stops recording once, unsubscribes both, and
empties the map. -/
theorem C4_witness :
    telescope_state_change cfgW oOffAB stRecAB =
      ⟨⟨offSourceS, [], []⟩, [Action.stop_recording, Action.process],
        none⟩ := by
  have h := (C4_off_source_stops_and_unsubscribes cfgW oOffAB stRecAB
    [nodeA, nodeB] rfl (by decide) rfl rfl (by decide) (by decide)).1
    (by decide)
  rw [h.1]
  decide

/-- C5: for a watched instance stored as `recording`, a notification whose
re-query returns a reachable state other than `recording` unsubscribes
exactly that instance, removes exactly its `daq_states` entry, and invokes
the processing hook; any other reachable result only updates that
instance's entry, with no subscription change and no external action. -/
theorem C5_recording_transition (cfg : Config) (o : Oracle) (st : AutoState)
    (channel inst ns : PyStr)
    (hparse : parse_instance cfg channel = some inst)
    (hq : o.daq_record_state = Except.ok ns)
    (hreach : ns ≠ unknownS) :
    ((dictGet st.daq_states inst unknownS = recordingS ∧ ns ≠ recordingS) →
      recording_state_change cfg o st channel =
        ⟨⟨st.telescope_state, dictRemove st.daq_states inst,
          subRemove st.subs (keyspace (instance_channel cfg.daq_domain inst))⟩,
          [Action.process], none⟩)
    ∧ (¬(dictGet st.daq_states inst unknownS = recordingS ∧ ns ≠ recordingS) →
      recording_state_change cfg o st channel =
        ⟨⟨st.telescope_state, dictSet st.daq_states inst ns, st.subs⟩,
          [], none⟩) := by
  constructor
  · intro hcond
    simp only [recording_state_change, hparse, hq]
    rw [if_neg hreach, if_pos hcond]
    have hu : unsubscribe_instances cfg.daq_domain [inst]
        ⟨st.telescope_state, dictSet st.daq_states inst ns, st.subs⟩ =
        (⟨st.telescope_state, dictRemove st.daq_states inst,
          subRemove st.subs
            (keyspace (instance_channel cfg.daq_domain inst))⟩, none) := by
      simp only [unsubscribe_instances, dictPop]
      rw [if_pos (dictMem_dictSet_self st.daq_states inst ns)]
      rw [dictRemove_dictSet]
    rw [hu]
  · intro hcond
    simp only [recording_state_change, hparse, hq]
    rw [if_neg hreach, if_neg hcond]

/-- Witness for C5: `nodeA` transitions `recording → idle` and is
unsubscribed and removed, with the processing hook invoked. -/
theorem C5_witness :
    recording_state_change cfgW oIdle stRecA chA =
      ⟨⟨onSourceS, [], []⟩, [Action.process], none⟩ := by
  have h := (C5_recording_transition cfgW oIdle stRecA chA nodeA idleS
    (by decide) rfl (by decide)).1 (by decide)
  rw [h]
  decide

/-- C6: the channel codec round-trips.  For any known instance, decoding
the channel built as domain ++ '://' ++ instance ++ '/status' with
`parse_instance` yields exactly that instance, provided the configured
domain does not itself contain `://` and the instance name does not contain
`/status` (both hold for the deployed configuration, e.g. domains like
`daq` and instances like `cosmic-gpu-0/0`). -/
theorem C6_codec_round_trip (cfg : Config) (i : PyStr)
    (hmem : i ∈ cfg.instances)
    (hd : containsSub strSep cfg.daq_domain = false)
    (hi : containsSub statusSuffix i = false) :
    parse_instance cfg (instance_channel cfg.daq_domain i) = some i := by
  have hd' := (containsSub_false_iff _ _).mp hd
  have hi' := (containsSub_false_iff _ _).mp hi
  have h1 : pySplitFirst strSep (instance_channel cfg.daq_domain i)
      = some (cfg.daq_domain, i ++ statusSuffix) := by
    have h := pySplitFirst_append strSep (by decide) ':' (String.toList "//")
      (by decide) cfg.daq_domain (i ++ statusSuffix) hd'
    simpa [instance_channel, List.append_assoc] using h
  have h2 : pyHeadSplit statusSuffix (i ++ statusSuffix) = i := by
    have h := pySplitFirst_append statusSuffix (by decide) '/' (String.toList "status")
      (by decide) i [] hi'
    rw [List.append_nil] at h
    simp [pyHeadSplit, h]
  simp [parse_instance, h1, h2, hmem]

/-- Witness for C6 at the concrete configuration. -/
theorem C6_witness :
    parse_instance cfgW (instance_channel cfgW.daq_domain nodeA)
      = some nodeA :=
  C6_codec_round_trip cfgW nodeA (by decide) (by decide) (by decide)

/-- C7 counterexample: the decoder performs no domain check — line 134
strips everything up to the first `://` without comparing it against the
configured domain.  The foreign-domain channel `foo://nodeA/status`
decodes to `nodeA`, not NotFound, and the enclosing
`recording_state_change` then changes local state: with `nodeA` stored as
recording and the re-query returning `idle`, it unsubscribes `nodeA`,
drops its map entry, and invokes the processing hook. -/
theorem C7_counterexample :
    parse_instance cfgW chForeign = some nodeA
    ∧ (recording_state_change cfgW oIdle stRecA chForeign).state.daq_states
        ≠ stRecA.daq_states
    ∧ (recording_state_change cfgW oIdle stRecA chForeign).state.subs
        ≠ stRecA.subs
    ∧ (recording_state_change cfgW oIdle stRecA chForeign).actions
        = [Action.process] := by
  decide

/-- C7 amended: `parse_instance` is total (the embedding returns an
`Option`; the bare `except` catches the only possible exception, the
`IndexError` from a channel without `://`): a channel without `://`
decodes to `none`, a channel whose extracted candidate (the text between
the first `://` and the first `/status`) is not a known instance decodes
to `none`, and whenever decoding yields `none` the enclosing
`recording_state_change` leaves the state untouched and performs no
action.  There is no domain check, however: whenever the extracted
candidate is a known instance, decoding succeeds with it regardless of
the channel's domain, and the notification is handled as a genuine
instance update. -/
theorem C7_decode_never_throws (cfg : Config) (o : Oracle) (st : AutoState)
    (channel pre rest : PyStr) :
    (pySplitFirst strSep channel = none → parse_instance cfg channel = none)
    ∧ (pySplitFirst strSep channel = some (pre, rest) →
        pyHeadSplit statusSuffix rest ∉ cfg.instances →
        parse_instance cfg channel = none)
    ∧ (parse_instance cfg channel = none →
        recording_state_change cfg o st channel = ⟨st, [], none⟩)
    ∧ (pySplitFirst strSep channel = some (pre, rest) →
        pyHeadSplit statusSuffix rest ∈ cfg.instances →
        parse_instance cfg channel = some (pyHeadSplit statusSuffix rest)) := by
  refine ⟨?_, ?_, ?_, ?_⟩
  · intro h
    simp [parse_instance, h]
  · intro h hmem
    simp [parse_instance, h, hmem]
  · intro h
    simp [recording_state_change, h]
  · intro h hmem
    simp [parse_instance, h, hmem]

/-- Witness for the amended C7: the spec's scenario 4 — `foo://bar/status`
with `bar` unknown is ignored with no state change. -/
theorem C7_witness :
    recording_state_change cfgW oUnk stRecA chFoo = ⟨stRecA, [], none⟩ :=
  (C7_decode_never_throws cfgW oUnk stRecA chFoo "foo".toList
    "bar/status".toList).2.2.1 (by decide)

/-- C8: `telescope_state_change` is idempotent when the externally queried
telescope state does not change between two calls: the second call returns
before any side effect, leaving state, map, and subscriptions unchanged. -/
theorem C8_antenna_idempotent (cfg : Config) (o1 o2 : Oracle)
    (st : AutoState) (ts : PyStr)
    (h1 : o1.telescope_state = Except.ok ts)
    (h2 : o2.telescope_state = Except.ok ts) :
    telescope_state_change cfg o2 (telescope_state_change cfg o1 st).state =
      ⟨(telescope_state_change cfg o1 st).state, [], none⟩ := by
  have hts : (telescope_state_change cfg o1 st).state.telescope_state = ts :=
    telescope_state_change_tel cfg o1 st ts h1
  generalize hgen : (telescope_state_change cfg o1 st).state = s1
  rw [hgen] at hts
  simp only [telescope_state_change, h2]
  rw [if_pos hts.symm]

/-- Witness for C8 at a concrete input: a second `on_source` query after an
`unknown → on_source` transition is a no-op. -/
theorem C8_witness :
    telescope_state_change cfgW oUnk
        (telescope_state_change cfgW oUnk stEmpty).state =
      ⟨(telescope_state_change cfgW oUnk stEmpty).state, [], none⟩ :=
  C8_antenna_idempotent cfgW oUnk oUnk stEmpty onSourceS rfl rfl

/-- C9 counterexample: a telescope-state query failure while handling the
first notification propagates out of the dispatch loop (the loop has no
exception handler), terminating it; the second notification — which, as
the second conjunct shows, would have transitioned the telescope state —
is never processed. -/
theorem C9_counterexample :
    run_loop cfgW stEmpty [(oFail, mAnt), (oUnk, mAnt)] =
      (stEmpty, [], some (Err.interfaceError connS))
    ∧ (run_loop cfgW stEmpty [(oUnk, mAnt)]).1.telescope_state
        = onSourceS := by
  decide

/-- C9 amended: an exception raised by an external interface call while
handling a notification is not contained — it propagates out of the
dispatch loop, which terminates with that error, and all remaining queued
notifications are left unprocessed (only the channel-parse failure inside
`parse_instance` is caught locally). -/
theorem C9_error_propagates (cfg : Config) (st : AutoState) (o : Oracle)
    (m : Msg) (rest : List (Oracle × Msg)) (e : Err)
    (h : (handle_message cfg o st m).err = some e) :
    run_loop cfg st ((o, m) :: rest) =
      ((handle_message cfg o st m).state,
        (handle_message cfg o st m).actions, some e) := by
  simp [run_loop, h]

/-- Witness for the amended C9 at a concrete failing oracle. -/
theorem C9_witness :
    run_loop cfgW stEmpty [(oFail, mAnt)] =
      (stEmpty, [], some (Err.interfaceError connS)) := by
  have h := C9_error_propagates cfgW stEmpty oFail mAnt []
    (Err.interfaceError connS) (by decide)
  rw [h]
  decide

/-- C10: `unsubscribe_instances` requires every argument instance to be a
key of `daq_states`: for an instance with no entry, the `pop` with no
default raises `KeyError` after that instance's channel has already been
unsubscribed; and `telescope_off_source`, which passes the externally
reported recording list, propagates that `KeyError` when the report is not
a subset of the map's keys. -/
theorem C10_unsubscribe_keyerror (cfg : Config) (o : Oracle)
    (st : AutoState) (i : PyStr)
    (hmem : dictMem st.daq_states i = false) :
    unsubscribe_instances cfg.daq_domain [i] st =
      (⟨st.telescope_state, st.daq_states,
        subRemove st.subs (keyspace (instance_channel cfg.daq_domain i))⟩,
        some (Err.keyError i))
    ∧ (o.daq_states_recording = Except.ok [i] →
        o.stop_recording = Except.ok () →
        (telescope_off_source cfg o st).err = some (Err.keyError i)) := by
  have hu : unsubscribe_instances cfg.daq_domain [i] st =
      (⟨st.telescope_state, st.daq_states,
        subRemove st.subs (keyspace (instance_channel cfg.daq_domain i))⟩,
        some (Err.keyError i)) := by
    simp [unsubscribe_instances, dictPop, hmem]
  refine ⟨hu, ?_⟩
  intro hrec hstop
  simp [telescope_off_source, hrec, hstop, hu]

/-- Witness for C10: `nodeB` is subscribed but absent from `daq_states`;
unsubscribing it removes the channel and then raises `KeyError`, and the
off-source path propagates that error. -/
theorem C10_witness :
    unsubscribe_instances cfgW.daq_domain [nodeB] stC10 =
      (⟨onSourceS, [(nodeA, recordingS)], [chanA]⟩,
        some (Err.keyError nodeB))
    ∧ (telescope_off_source cfgW oOffB stC10).err
        = some (Err.keyError nodeB) := by
  have h := C10_unsubscribe_keyerror cfgW oOffB stC10 nodeB (by decide)
  constructor
  · rw [h.1]
    decide
  · exact h.2 rfl rfl

end Automator

